import Mathlib

/-!
pico-gamepad: HID report change detection and LED heartbeat

A shallow embedding of `src/main.cpp`:

* `equal` (lines 89-94), the byte-array comparison;
* `tuh_hid_report_received_cb` (lines 97-150), the report callback, over an explicit
  last-seen state and an explicit output stream;
* `led_blinking_task` (lines 153-164), the polled heartbeat, over an explicit
  deadline / level state and an explicit list of pin writes.

Conventions.  A `uint8_t*` is the list of bytes that can be read starting at the address;
reading past its end is undefined behaviour and makes the embedded function return `none`.
Machine integers are natural numbers (or integers for `int64_t`), with explicit reduction
modulo `2 ^ 16` or `2 ^ 32` where the source can wrap.
-/

set_option autoImplicit false

namespace PicoGamepad

/-! ## Byte arrays -/

/-- Loop of `equal` (lines 91-92): `i` is the loop counter and `n = len1 - i` the number of
iterations still to run.  Each iteration reads `arr1[i]` and `arr2[i]`; a read outside an
array is undefined (`none`). -/
def equal_loop (arr1 arr2 : List Nat) : Nat → Nat → Option Bool
  | _, 0 => some true
  | i, n + 1 =>
    match arr1[i]?, arr2[i]? with
    | some a, some b => if a ≠ b then some false else equal_loop arr1 arr2 (i + 1) n
    | _, _ => none

/-- Embedding of `bool equal(uint16_t len1, const uint8_t* arr1, uint16_t len2,
const uint8_t* arr2)` (lines 89-94). -/
def equal (len1 : Nat) (arr1 : List Nat) (len2 : Nat) (arr2 : List Nat) : Option Bool :=
  if len1 ≠ len2 then some false
  else equal_loop arr1 arr2 0 len1

/-! ## Formatted output

The program prints through `printf`; the output stream is embedded as the list of
characters written. -/

/-- The `%u` conversion of `printf`: the decimal digits of the value. -/
def printf_u (v : Nat) : List Char :=
  Nat.toDigits 10 v

/-- The `%02x` conversion of `printf`: the lower-case hexadecimal digits of the value,
padded on the left with zeros to a minimum width of two. -/
def printf_02x (v : Nat) : List Char :=
  let digits := Nat.toDigits 16 v
  List.replicate (2 - digits.length) '0' ++ digits

/-- Loop of lines 139-140: `printf(" %02x", report[i])` for `i` counting up, `n = len - i`
iterations still to run.  Reading `report[i]` outside the buffer is undefined. -/
def print_bytes (report : List Nat) : Nat → Nat → Option (List Char)
  | _, 0 => some []
  | i, n + 1 =>
    match report[i]? with
    | none => none
    | some b =>
      match print_bytes report (i + 1) n with
      | none => none
      | some rest => some (' ' :: printf_02x b ++ rest)

/-- The `memcpy(dst, src, n)` of line 148 into a fresh buffer of `n` bytes: the `n` bytes read
from `src`; undefined when `src` holds fewer than `n` bytes. -/
def memcpy (src : List Nat) (n : Nat) : Option (List Nat) :=
  if n ≤ src.length then some (src.take n) else none

/-! ## Report descriptors and the last-seen report -/

/-- Modelled from the spec: the report descriptor entry `tuh_hid_report_info_t`, whose
declaration lives in the USB host stack's headers: report identifier, usage page and usage
id, all unsigned and narrower than 64 bits (so that their conversion to `int64_t` keeps the
value). -/
structure tuh_hid_report_info_t where
  report_id : Nat
  usage : Nat
  usage_page : Nat
deriving DecidableEq, Repr

/-- The row of the tables `_report_count` and `_report_info_arr` (lines 68-69) selected by
the callback argument `instance`: `rpt_count` is `_report_count[instance]`, a `uint8_t`, and
`rpt_info_arr` is the array `_report_info_arr[instance]`. -/
structure HidInstance where
  rpt_count : Nat
  rpt_info_arr : List tuh_hid_report_info_t
deriving DecidableEq, Repr

/-- The globals of lines 84-87.  `last_page` and `last_usage` are `int64_t`, `last_len` is
`uint16_t`, and `last_report` is `nullptr` (`none`) or a heap buffer (`some bytes`). -/
structure LastSeen where
  last_page : Int
  last_usage : Int
  last_len : Nat
  last_report : Option (List Nat)
deriving DecidableEq, Repr

/-- The initial values of the globals (lines 84-87). -/
def LastSeen.startup : LastSeen :=
  { last_page := -1, last_usage := -1, last_len := 0, last_report := none }

/-- The bytes that can be read through `last_report`: none through a null pointer. -/
def LastSeen.bytes (s : LastSeen) : List Nat :=
  match s.last_report with
  | none => []
  | some bs => bs

/-- The buffer behind `last_report` holds at least `last_len` bytes. -/
def LastSeen.WellFormed (s : LastSeen) : Prop :=
  s.last_len ≤ s.bytes.length

instance (s : LastSeen) : Decidable s.WellFormed :=
  inferInstanceAs (Decidable (s.last_len ≤ s.bytes.length))

/-! ## The report callback -/

/-- Loop of lines 112-117: search `rpt_info_arr[i]` for `i` counting up, with
`n = rpt_count - i` iterations still to run, and stop at the first entry whose `report_id` is
`rpt_id`.  `some none` is a finished search that left `rpt_info` null; reading outside the
array is undefined. -/
def find_report_info (rpt_id : Nat) (rpt_info_arr : List tuh_hid_report_info_t) :
    Nat → Nat → Option (Option tuh_hid_report_info_t)
  | _, 0 => some none
  | i, n + 1 =>
    match rpt_info_arr[i]? with
    | none => none
    | some e =>
      if rpt_id = e.report_id then some (some e)
      else find_report_info rpt_id rpt_info_arr (i + 1) n

/-- The `else` branch of lines 107-121: read the report id `report[0]`, search the table,
then `report++` and `len--` (a `uint16_t`, so modulo `2 ^ 16`). -/
def composite_report (inst : HidInstance) (report : List Nat) (len : Nat) :
    Option (Option tuh_hid_report_info_t × List Nat × Nat) :=
  match report[0]? with
  | none => none
  | some rpt_id =>
    match find_report_info rpt_id inst.rpt_info_arr 0 inst.rpt_count with
    | none => none
    | some rpt_info => some (rpt_info, report.drop 1, (len + 65535) % 65536)

/-- Lines 100-121 of `tuh_hid_report_received_cb`: the descriptor `rpt_info` (or null), and
the values of `report` and `len` after the branch. -/
def resolve_report (inst : HidInstance) (report : List Nat) (len : Nat) :
    Option (Option tuh_hid_report_info_t × List Nat × Nat) :=
  if inst.rpt_count = 1 then
    match inst.rpt_info_arr[0]? with
    | none => none
    | some e =>
      if e.report_id = 0 then some (some e, report, len)
      else composite_report inst report len
  else composite_report inst report len

/-- The condition of lines 128-132, with the short-circuit evaluation of `||`.  The
`int64_t` globals are compared with the unsigned descriptor fields after the value-keeping
conversion to `int64_t`. -/
def report_changed (s : LastSeen) (rpt_info : tuh_hid_report_info_t) (report : List Nat)
    (len : Nat) : Option Bool :=
  if s.last_page ≠ (rpt_info.usage_page : Int) then some true
  else if s.last_usage ≠ (rpt_info.usage : Int) then some true
  else
    match equal s.last_len s.bytes len report with
    | none => none
    | some b => some (!b)

/-- Lines 123-149 of `tuh_hid_report_received_cb`: the text printed and the globals
afterwards. -/
def process_report (s : LastSeen) (rpt_info : Option tuh_hid_report_info_t)
    (report : List Nat) (len : Nat) : Option (List Char × LastSeen) :=
  match rpt_info with
  | none => some ("Couldn't find the report info for this report !\r\n".toList, s)
  | some info =>
    match report_changed s info report len with
    | none => none
    | some false => some ([], s)
    | some true =>
      match print_bytes report 0 len, memcpy report len with
      | some hex, some copy =>
        some ("report[".toList ++ printf_u len ++ "] =".toList ++ hex ++ "\n".toList,
          { last_page := (info.usage_page : Int)
            last_usage := (info.usage : Int)
            last_len := len
            last_report := some copy })
      | _, _ => none

/-- Embedding of `tuh_hid_report_received_cb` (lines 97-150) for the table row `inst` of
the instance, the bytes `report` readable at the report pointer and the `uint16_t` length
`len`.  The result is the text printed and the last-seen globals afterwards, or `none` when
the call reads outside a buffer. -/
def tuh_hid_report_received_cb (s : LastSeen) (inst : HidInstance) (report : List Nat)
    (len : Nat) : Option (List Char × LastSeen) :=
  match resolve_report inst report len with
  | none => none
  | some (rpt_info, payload, plen) => process_report s rpt_info payload plen

/-! ## The heartbeat -/

/-- The two `static` variables of `led_blinking_task` (lines 155-156). -/
structure LedState where
  start_ms : Nat
  led_state : Bool
deriving DecidableEq, Repr

/-- The initial values of the `static` variables. -/
def LedState.startup : LedState :=
  { start_ms := 0, led_state := false }

/-- Embedding of `led_blinking_task` (lines 153-164) for the clock reading
`now = board_millis()`.  The result is the new state and the levels written to the pin by
`gpio_put`.  `uint32_t` subtraction and addition are taken modulo `2 ^ 32`;
`led_state = 1 - led_state` is computed on integers and converted back to `bool`. -/
def led_blinking_task (s : LedState) (now : Nat) : LedState × List Bool :=
  let interval_ms := 1000
  if (now + 2 ^ 32 - s.start_ms) % 2 ^ 32 < interval_ms then (s, [])
  else
    ({ start_ms := (s.start_ms + interval_ms) % 2 ^ 32
       led_state := decide ((1 : Int) - (if s.led_state then 1 else 0) ≠ 0) },
     [s.led_state])

/-- The calls of `led_blinking_task` made by the main loop (lines 57-60), one for each clock
reading of `polls`, with the pin writes collected in order. -/
def led_run (s : LedState) : List Nat → LedState × List Bool
  | [] => (s, [])
  | now :: polls =>
    let r := led_blinking_task s now
    let rest := led_run r.1 polls
    (rest.1, r.2 ++ rest.2)

/-! ## The output format as the specification words it -/

/-- The hexadecimal digit of a value below sixteen. -/
def hex_digit (d : Nat) : Char :=
  if d < 10 then Char.ofNat (48 + d) else Char.ofNat (87 + d)

/-- A byte written as exactly two hexadecimal digits, high nibble first. -/
def two_digit_hex (b : Nat) : List Char :=
  [hex_digit (b / 16), hex_digit (b % 16)]

/-- The line `report[<len>] = <hex bytes...>` followed by a newline. -/
def report_line (len : Nat) (bytes : List Nat) : List Char :=
  "report[".toList ++ (toString len).toList ++ "] =".toList
    ++ (bytes.map (fun b => ' ' :: two_digit_hex b)).flatten ++ ['\n']


/-! ## Facts about `equal` -/

theorem equal_loop_spec (arr1 arr2 : List Nat) :
    ∀ (n i : Nat), i + n ≤ arr1.length → i + n ≤ arr2.length →
      ∃ b, equal_loop arr1 arr2 i n = some b ∧
        (b = true ↔ ∀ j, i ≤ j → j < i + n → arr1[j]? = arr2[j]?) := by
  intro n
  induction n with
  | zero =>
    intro i _ _
    exact ⟨true, rfl, by simp; intro j h1 h2; omega⟩
  | succ n ih =>
    intro i h1 h2
    have hi1 : i < arr1.length := by omega
    have hi2 : i < arr2.length := by omega
    simp only [equal_loop, List.getElem?_eq_getElem hi1, List.getElem?_eq_getElem hi2]
    by_cases hab : arr1[i] = arr2[i]
    · obtain ⟨b, hb, hiff⟩ := ih (i + 1) (by omega) (by omega)
      refine ⟨b, by simp [hab, hb], ?_⟩
      rw [hiff]
      constructor
      · intro h j hj1 hj2
        by_cases hji : j = i
        · subst hji
          simp [List.getElem?_eq_getElem hi1, List.getElem?_eq_getElem hi2, hab]
        · exact h j (by omega) (by omega)
      · intro h j hj1 hj2
        exact h j (by omega) (by omega)
    · refine ⟨false, by simp [hab], ?_⟩
      simp only [Bool.false_eq_true, false_iff]
      intro h
      have := h i (le_refl i) (by omega)
      simp [List.getElem?_eq_getElem hi1, List.getElem?_eq_getElem hi2] at this
      exact hab this

theorem take_eq_iff_getElem? (a1 a2 : List Nat) (n : Nat) :
    a1.take n = a2.take n ↔ ∀ j, j < n → a1[j]? = a2[j]? := by
  constructor
  · intro h j hj
    have := congrArg (fun l => l[j]?) h
    simpa [List.getElem?_take, hj] using this
  · intro h
    apply List.ext_getElem?
    intro j
    by_cases hj : j < n
    · simp [List.getElem?_take, hj, h j hj]
    · simp [List.getElem?_take, hj]

/-- On buffers that are large enough, `equal` decides equality of lengths and of the
compared prefixes. -/
theorem equal_eq_decide (len1 len2 : Nat) (arr1 arr2 : List Nat)
    (h1 : len1 ≤ arr1.length) (h2 : len2 ≤ arr2.length) :
    equal len1 arr1 len2 arr2 =
      some (decide (len1 = len2 ∧ arr1.take len1 = arr2.take len2)) := by
  by_cases hlen : len1 = len2
  · subst hlen
    obtain ⟨b, hb, hiff⟩ := equal_loop_spec arr1 arr2 len1 0 (by omega) (by omega)
    have hb2 : b = decide (arr1.take len1 = arr2.take len1) := by
      rw [Bool.eq_iff_iff, hiff, decide_eq_true_iff, take_eq_iff_getElem?]
      constructor
      · intro h j hj; exact h j (Nat.zero_le j) (by omega)
      · intro h j _ hj; exact h j (by omega)
    simp [equal, hb, hb2]
  · simp [equal, hlen]

/-- C1: for arrays holding at least `len1` resp. `len2` bytes, `equal` returns a value, it
returns true exactly when the lengths agree and every byte below `len1` agrees, and it
returns false whenever the lengths differ. -/
theorem equal_true_iff (len1 len2 : Nat) (arr1 arr2 : List Nat)
    (h1 : len1 ≤ arr1.length) (h2 : len2 ≤ arr2.length) :
    (∃ b, equal len1 arr1 len2 arr2 = some b) ∧
    (equal len1 arr1 len2 arr2 = some true ↔
      len1 = len2 ∧ ∀ i, i < len1 → arr1[i]? = arr2[i]?) ∧
    (len1 ≠ len2 → equal len1 arr1 len2 arr2 = some false) := by
  by_cases hlen : len1 = len2
  · subst hlen
    obtain ⟨b, hb, hiff⟩ := equal_loop_spec arr1 arr2 len1 0 (by omega) (by omega)
    simp only [equal, ne_eq, not_true_eq_false, if_false, hb]
    refine ⟨⟨b, rfl⟩, ?_, fun h => h.elim⟩
    simp only [Option.some.injEq, true_and, hiff]
    constructor
    · intro h i hi; exact h i (Nat.zero_le i) (by omega)
    · intro h j _ hj; exact h j (by omega)
  · simp [equal, hlen]

theorem equal_true_iff_witness :
    (∃ b, equal 2 [7, 9, 4] 2 [7, 9] = some b) ∧
    (equal 2 [7, 9, 4] 2 [7, 9] = some true ↔
      2 = 2 ∧ ∀ i, i < 2 → [7, 9, 4][i]? = [7, 9][i]?) ∧
    (2 ≠ 2 → equal 2 [7, 9, 4] 2 [7, 9] = some false) :=
  equal_true_iff 2 2 [7, 9, 4] [7, 9] (by decide) (by decide)

/-! ## Facts about the loops of the callback -/

set_option maxRecDepth 100000 in
theorem printf_02x_byte : ∀ b, b < 256 → printf_02x b = two_digit_hex b := by
  decide

theorem printf_u_eq (v : Nat) : printf_u v = (toString v).toList := rfl

theorem print_bytes_spec (report : List Nat) :
    ∀ (n i : Nat), i + n ≤ report.length →
      print_bytes report i n =
        some (((report.drop i).take n).map (fun b => ' ' :: printf_02x b)).flatten := by
  intro n
  induction n with
  | zero => intro i _; simp [print_bytes]
  | succ n ih =>
    intro i h
    have hi : i < report.length := by omega
    rw [print_bytes, List.getElem?_eq_getElem hi]
    simp only [ih (i + 1) (by omega)]
    rw [List.drop_eq_getElem_cons hi, List.take_succ_cons, List.map_cons, List.flatten_cons]

theorem find_report_info_spec (rpt_id : Nat) (arr : List tuh_hid_report_info_t) :
    ∀ (n i : Nat), i + n ≤ arr.length →
      find_report_info rpt_id arr i n =
        some (((arr.drop i).take n).find? (fun e => decide (e.report_id = rpt_id))) := by
  intro n
  induction n with
  | zero => intro i _; simp [find_report_info]
  | succ n ih =>
    intro i h
    have hi : i < arr.length := by omega
    rw [find_report_info, List.getElem?_eq_getElem hi]
    simp only [ih (i + 1) (by omega)]
    rw [List.drop_eq_getElem_cons hi, List.take_succ_cons, List.find?_cons]
    by_cases hid : rpt_id = arr[i].report_id
    · simp [hid]
    · have hid2 : ¬ arr[i].report_id = rpt_id := fun h => hid h.symm
      simp [hid, hid2]

/-! ## Facts about the change detector -/

/-- The report stored by lines 143-148. -/
theorem process_report_found (s : LastSeen) (info : tuh_hid_report_info_t)
    (payload : List Nat) (plen : Nat) (hs : s.WellFormed) (hp : plen ≤ payload.length) :
    process_report s (some info) payload plen =
      if s.last_page = (info.usage_page : Int) ∧ s.last_usage = (info.usage : Int) ∧
          s.last_len = plen ∧ s.bytes.take s.last_len = payload.take plen then
        some ([], s)
      else
        some ("report[".toList ++ printf_u plen ++ "] =".toList
            ++ ((payload.take plen).map (fun b => ' ' :: printf_02x b)).flatten ++ "\n".toList,
          { last_page := (info.usage_page : Int)
            last_usage := (info.usage : Int)
            last_len := plen
            last_report := some (payload.take plen) }) := by
  have hprint := print_bytes_spec payload plen 0 (by omega)
  have heq := equal_eq_decide s.last_len plen s.bytes payload hs hp
  simp only [List.drop_zero] at hprint
  by_cases h1 : s.last_page = (info.usage_page : Int)
  · by_cases h2 : s.last_usage = (info.usage : Int)
    · by_cases h3 : s.last_len = plen ∧ s.bytes.take s.last_len = payload.take plen
      · have hc : report_changed s info payload plen = some false := by
          unfold report_changed
          rw [heq, decide_eq_true h3]
          simp [h1, h2]
        rw [if_pos ⟨h1, h2, h3⟩]
        simp [process_report, hc]
      · have hc : report_changed s info payload plen = some true := by
          unfold report_changed
          rw [heq, decide_eq_false h3]
          simp [h1, h2]
        have h3' : ¬ (s.last_page = (info.usage_page : Int) ∧ s.last_usage = (info.usage : Int) ∧
          s.last_len = plen ∧ s.bytes.take s.last_len = payload.take plen) :=
          fun h => h3 h.2.2
        rw [if_neg h3']
        simp [process_report, hc, hprint, memcpy, hp]
    · have hc : report_changed s info payload plen = some true := by
        simp [report_changed, h1, h2]
      have h3' : ¬ (s.last_page = (info.usage_page : Int) ∧ s.last_usage = (info.usage : Int) ∧
          s.last_len = plen ∧ s.bytes.take s.last_len = payload.take plen) :=
          fun h => h2 h.2.1
      rw [if_neg h3']
      simp [process_report, hc, hprint, memcpy, hp]
  · have hc : report_changed s info payload plen = some true := by
      simp [report_changed, h1]
    have h3' : ¬ (s.last_page = (info.usage_page : Int) ∧ s.last_usage = (info.usage : Int) ∧
          s.last_len = plen ∧ s.bytes.take s.last_len = payload.take plen) :=
          fun h => h1 h.1
    rw [if_neg h3']
    simp [process_report, hc, hprint, memcpy, hp]

theorem report_line_eq (plen : Nat) (bytes : List Nat) (hb : ∀ b ∈ bytes, b < 256) :
    "report[".toList ++ printf_u plen ++ "] =".toList
        ++ (bytes.map (fun b => ' ' :: printf_02x b)).flatten ++ "\n".toList =
      report_line plen bytes := by
  have hmap : bytes.map (fun b => ' ' :: printf_02x b) =
      bytes.map (fun b => ' ' :: two_digit_hex b) := by
    apply List.map_congr_left
    intro b hmem
    rw [printf_02x_byte b (hb b hmem)]
  rw [hmap, printf_u_eq]
  rfl

theorem cb_of_resolve (s : LastSeen) (inst : HidInstance) (report : List Nat) (len : Nat)
    (rpt_info : Option tuh_hid_report_info_t) (payload : List Nat) (plen : Nat)
    (hres : resolve_report inst report len = some (rpt_info, payload, plen)) :
    tuh_hid_report_received_cb s inst report len = process_report s rpt_info payload plen := by
  simp [tuh_hid_report_received_cb, hres]

theorem resolve_composite (inst : HidInstance) (b0 : Nat) (rest : List Nat) (len : Nat)
    (hcomp : inst.rpt_count = 1 → ∀ e, inst.rpt_info_arr[0]? = some e → e.report_id ≠ 0)
    (harr : inst.rpt_count ≤ inst.rpt_info_arr.length) :
    resolve_report inst (b0 :: rest) len =
      some ((inst.rpt_info_arr.take inst.rpt_count).find? (fun e => decide (e.report_id = b0)),
        rest, (len + 65535) % 65536) := by
  have hfind := find_report_info_spec b0 inst.rpt_info_arr inst.rpt_count 0 (by omega)
  simp only [List.drop_zero] at hfind
  have hc : composite_report inst (b0 :: rest) len =
      some ((inst.rpt_info_arr.take inst.rpt_count).find? (fun e => decide (e.report_id = b0)),
        rest, (len + 65535) % 65536) := by
    simp [composite_report, hfind]
  unfold resolve_report
  by_cases h1 : inst.rpt_count = 1
  · have h0 : 0 < inst.rpt_info_arr.length := by omega
    have hne := hcomp h1 _ (List.getElem?_eq_getElem h0)
    rw [if_pos h1, List.getElem?_eq_getElem h0]
    simp only [hne, if_false, hc]
  · rw [if_neg h1, hc]

/-- A non-empty report of at most `len <= 65535` readable bytes, against a table row that
holds its `rpt_count` entries, always resolves, and the resolved payload is readable over
its whole resolved length. -/
theorem resolve_report_readable (inst : HidInstance) (report : List Nat) (len : Nat)
    (harr : inst.rpt_count ≤ inst.rpt_info_arr.length) (hbuf : len ≤ report.length)
    (hpos : 0 < len) (hlt : len < 65536) :
    ∃ rpt_info payload plen, resolve_report inst report len = some (rpt_info, payload, plen) ∧
      plen ≤ payload.length := by
  cases report with
  | nil => simp at hbuf; omega
  | cons b0 rest =>
    by_cases hcomp : inst.rpt_count = 1 → ∀ e, inst.rpt_info_arr[0]? = some e → e.report_id ≠ 0
    · refine ⟨_, _, _, resolve_composite inst b0 rest len hcomp harr, ?_⟩
      simp only [List.length_cons] at hbuf
      omega
    · simp only [not_forall, not_not, exists_prop] at hcomp
      obtain ⟨h1, e, he, hid⟩ := hcomp
      exact ⟨some e, b0 :: rest, len, by simp [resolve_report, h1, he, hid], hbuf⟩

/-- The well-formedness of the last-seen state holds at startup. -/
theorem wellFormed_startup : LastSeen.startup.WellFormed := by
  decide

/-- The well-formedness of the last-seen state is kept by every call of the callback that
stays inside its buffers. -/
theorem wellFormed_preserved (s s1 : LastSeen) (inst : HidInstance) (report : List Nat)
    (len : Nat) (out : List Char) (hs : s.WellFormed)
    (h : tuh_hid_report_received_cb s inst report len = some (out, s1)) : s1.WellFormed := by
  unfold tuh_hid_report_received_cb at h
  split at h
  · exact absurd h (by simp)
  · rename_i rpt_info payload plen _
    unfold process_report at h
    split at h
    · simp only [Option.some.injEq, Prod.mk.injEq] at h
      rw [← h.2]; exact hs
    · split at h
      · exact absurd h (by simp)
      · simp only [Option.some.injEq, Prod.mk.injEq] at h
        rw [← h.2]; exact hs
      · split at h
        · rename_i hex copy _ hcopy
          simp only [Option.some.injEq, Prod.mk.injEq] at h
          rw [← h.2]
          unfold memcpy at hcopy
          split at hcopy
          · rename_i hle
            simp only [Option.some.injEq] at hcopy
            simp [LastSeen.WellFormed, LastSeen.bytes, ← hcopy, hle]
          · exact absurd hcopy (by simp)
        · exact absurd h (by simp)

/-! ## The claims about the report callback -/

/-- C2: when the descriptor is found and the resolved usage page, the resolved usage, the
payload length or some payload byte differs from the last-seen report, the callback prints
exactly the line `report[<len>] =` followed by every payload byte in order as two
hexadecimal digits, and the last-seen state becomes the new page, usage, length and a copy
of exactly the payload bytes. -/
theorem changed_report_printed_and_stored (s : LastSeen) (inst : HidInstance)
    (report : List Nat) (len : Nat) (info : tuh_hid_report_info_t) (payload : List Nat)
    (plen : Nat)
    (hres : resolve_report inst report len = some (some info, payload, plen))
    (hs : s.WellFormed) (hp : plen ≤ payload.length)
    (hbytes : ∀ b ∈ payload.take plen, b < 256)
    (hdiff : s.last_page ≠ (info.usage_page : Int) ∨ s.last_usage ≠ (info.usage : Int) ∨
      s.last_len ≠ plen ∨ ∃ i, i < plen ∧ s.bytes[i]? ≠ payload[i]?) :
    tuh_hid_report_received_cb s inst report len =
      some (report_line plen (payload.take plen),
        { last_page := (info.usage_page : Int)
          last_usage := (info.usage : Int)
          last_len := plen
          last_report := some (payload.take plen) }) := by
  rw [cb_of_resolve s inst report len _ _ _ hres, process_report_found s info payload plen hs hp,
    if_neg, report_line_eq plen _ hbytes]
  rintro ⟨ha, hb, hc, hd⟩
  rcases hdiff with h | h | h | ⟨i, hi, h⟩
  · exact h ha
  · exact h hb
  · exact h hc
  · rw [hc] at hd
    exact h ((take_eq_iff_getElem? _ _ _).1 hd i hi)

theorem changed_report_printed_and_stored_witness :
    resolve_report ⟨1, [⟨0, 6, 1⟩, ⟨0, 0, 0⟩, ⟨0, 0, 0⟩, ⟨0, 0, 0⟩]⟩ [5, 9] 2
        = some (some ⟨0, 6, 1⟩, [5, 9], 2) ∧
    tuh_hid_report_received_cb ⟨1, 6, 2, some [5, 8]⟩
        ⟨1, [⟨0, 6, 1⟩, ⟨0, 0, 0⟩, ⟨0, 0, 0⟩, ⟨0, 0, 0⟩]⟩ [5, 9] 2 =
      some (report_line 2 [5, 9], ⟨1, 6, 2, some [5, 9]⟩) :=
  ⟨by decide,
   changed_report_printed_and_stored ⟨1, 6, 2, some [5, 8]⟩
    ⟨1, [⟨0, 6, 1⟩, ⟨0, 0, 0⟩, ⟨0, 0, 0⟩, ⟨0, 0, 0⟩]⟩ [5, 9] 2 ⟨0, 6, 1⟩ [5, 9] 2
    (by decide) (by decide) (by decide) (by decide)
    (Or.inr (Or.inr (Or.inr ⟨1, by decide, by decide⟩)))⟩

/-- C3: when the descriptor is found, the resolved usage page and usage equal the stored
ones and the payload has the same length and the same bytes as the last-seen report, the
callback prints nothing and leaves the four last-seen fields unchanged. -/
theorem equal_report_is_silent (s : LastSeen) (inst : HidInstance)
    (report : List Nat) (len : Nat) (info : tuh_hid_report_info_t) (payload : List Nat)
    (plen : Nat)
    (hres : resolve_report inst report len = some (some info, payload, plen))
    (hs : s.WellFormed) (hp : plen ≤ payload.length)
    (hpage : s.last_page = (info.usage_page : Int))
    (husage : s.last_usage = (info.usage : Int))
    (hlen : s.last_len = plen)
    (hsame : ∀ i, i < plen → s.bytes[i]? = payload[i]?) :
    tuh_hid_report_received_cb s inst report len = some ([], s) := by
  rw [cb_of_resolve s inst report len _ _ _ hres, process_report_found s info payload plen hs hp,
    if_pos]
  refine ⟨hpage, husage, hlen, ?_⟩
  rw [hlen]
  exact (take_eq_iff_getElem? _ _ _).2 hsame

theorem equal_report_is_silent_witness :
    resolve_report ⟨1, [⟨0, 6, 1⟩, ⟨0, 0, 0⟩, ⟨0, 0, 0⟩, ⟨0, 0, 0⟩]⟩ [5, 9] 2
        = some (some ⟨0, 6, 1⟩, [5, 9], 2) ∧
    tuh_hid_report_received_cb ⟨1, 6, 2, some [5, 9]⟩
        ⟨1, [⟨0, 6, 1⟩, ⟨0, 0, 0⟩, ⟨0, 0, 0⟩, ⟨0, 0, 0⟩]⟩ [5, 9] 2 =
      some ([], ⟨1, 6, 2, some [5, 9]⟩) :=
  ⟨by decide,
   equal_report_is_silent ⟨1, 6, 2, some [5, 9]⟩
    ⟨1, [⟨0, 6, 1⟩, ⟨0, 0, 0⟩, ⟨0, 0, 0⟩, ⟨0, 0, 0⟩]⟩ [5, 9] 2 ⟨0, 6, 1⟩ [5, 9] 2
    (by decide) (by decide) (by decide) (by decide) (by decide) (by decide) (by decide)⟩

/-- C4, as stated, fails: the stored report is the byte `05` with usage page 1 and usage 2;
the received simple report is the same single byte `05`, resolved to usage page 1 and
usage 6.  Length and bytes agree, yet the callback prints the report and stores the new
usage. -/
theorem same_bytes_other_usage_is_printed :
    resolve_report ⟨1, [⟨0, 6, 1⟩, ⟨0, 0, 0⟩, ⟨0, 0, 0⟩, ⟨0, 0, 0⟩]⟩ [5] 1
        = some (some ⟨0, 6, 1⟩, [5], 1) ∧
    LastSeen.WellFormed ⟨1, 2, 1, some [5]⟩ ∧
    LastSeen.last_len ⟨1, 2, 1, some [5]⟩ = 1 ∧
    (∀ i, i < 1 → (LastSeen.bytes ⟨1, 2, 1, some [5]⟩)[i]? = [5][i]?) ∧
    tuh_hid_report_received_cb ⟨1, 2, 1, some [5]⟩
        ⟨1, [⟨0, 6, 1⟩, ⟨0, 0, 0⟩, ⟨0, 0, 0⟩, ⟨0, 0, 0⟩]⟩ [5] 1 =
      some ("report[1] = 05\n".toList, ⟨1, 6, 1, some [5]⟩) ∧
    tuh_hid_report_received_cb ⟨1, 2, 1, some [5]⟩
        ⟨1, [⟨0, 6, 1⟩, ⟨0, 0, 0⟩, ⟨0, 0, 0⟩, ⟨0, 0, 0⟩]⟩ [5] 1 ≠
      some ([], ⟨1, 2, 1, some [5]⟩) := by
  decide

/-- C4, amended: when the descriptor is found and the payload has the same length and the
same bytes as the last-seen report, the callback prints nothing and leaves the last-seen
state unchanged exactly when the resolved usage page and usage also equal the stored
ones. -/
theorem same_bytes_silent_iff_same_page_and_usage (s : LastSeen) (inst : HidInstance)
    (report : List Nat) (len : Nat) (info : tuh_hid_report_info_t) (payload : List Nat)
    (plen : Nat)
    (hres : resolve_report inst report len = some (some info, payload, plen))
    (hs : s.WellFormed) (hp : plen ≤ payload.length)
    (hlen : s.last_len = plen)
    (hsame : ∀ i, i < plen → s.bytes[i]? = payload[i]?) :
    tuh_hid_report_received_cb s inst report len = some ([], s) ↔
      s.last_page = (info.usage_page : Int) ∧ s.last_usage = (info.usage : Int) := by
  have htake : s.bytes.take s.last_len = payload.take plen := by
    rw [hlen]
    exact (take_eq_iff_getElem? _ _ _).2 hsame
  rw [cb_of_resolve s inst report len _ _ _ hres, process_report_found s info payload plen hs hp]
  by_cases hc : s.last_page = (info.usage_page : Int) ∧ s.last_usage = (info.usage : Int)
  · rw [if_pos ⟨hc.1, hc.2, hlen, htake⟩]
    simp [hc]
  · rw [if_neg (fun h => hc ⟨h.1, h.2.1⟩)]
    simp [hc]

theorem same_bytes_silent_iff_same_page_and_usage_witness :
    resolve_report ⟨1, [⟨0, 6, 1⟩, ⟨0, 0, 0⟩, ⟨0, 0, 0⟩, ⟨0, 0, 0⟩]⟩ [5] 1
        = some (some ⟨0, 6, 1⟩, [5], 1) ∧
    (tuh_hid_report_received_cb ⟨1, 2, 1, some [5]⟩
        ⟨1, [⟨0, 6, 1⟩, ⟨0, 0, 0⟩, ⟨0, 0, 0⟩, ⟨0, 0, 0⟩]⟩ [5] 1 =
      some ([], ⟨1, 2, 1, some [5]⟩) ↔
      (1 : Int) = ((1 : Nat) : Int) ∧ (2 : Int) = ((6 : Nat) : Int)) :=
  ⟨by decide,
   same_bytes_silent_iff_same_page_and_usage ⟨1, 2, 1, some [5]⟩
    ⟨1, [⟨0, 6, 1⟩, ⟨0, 0, 0⟩, ⟨0, 0, 0⟩, ⟨0, 0, 0⟩]⟩ [5] 1 ⟨0, 6, 1⟩ [5] 1
    (by decide) (by decide) (by decide) (by decide) (by decide)⟩

/-- C9: when the descriptor is found, delivering the same report twice in a row makes the
second delivery print nothing and leaves the last-seen state as it was after the first
delivery. -/
theorem second_delivery_is_silent (s : LastSeen) (inst : HidInstance)
    (report : List Nat) (len : Nat) (info : tuh_hid_report_info_t) (payload : List Nat)
    (plen : Nat)
    (hres : resolve_report inst report len = some (some info, payload, plen))
    (hs : s.WellFormed) (hp : plen ≤ payload.length) :
    ∃ out s1, tuh_hid_report_received_cb s inst report len = some (out, s1) ∧
      tuh_hid_report_received_cb s1 inst report len = some ([], s1) := by
  by_cases hc : s.last_page = (info.usage_page : Int) ∧ s.last_usage = (info.usage : Int) ∧
      s.last_len = plen ∧ s.bytes.take s.last_len = payload.take plen
  · have h1 : tuh_hid_report_received_cb s inst report len = some ([], s) := by
      rw [cb_of_resolve s inst report len _ _ _ hres,
        process_report_found s info payload plen hs hp, if_pos hc]
    exact ⟨[], s, h1, h1⟩
  · have h1 := process_report_found s info payload plen hs hp
    rw [if_neg hc, ← cb_of_resolve s inst report len _ _ _ hres] at h1
    refine ⟨_, _, h1, ?_⟩
    · have hwf : LastSeen.WellFormed
          { last_page := (info.usage_page : Int), last_usage := (info.usage : Int),
            last_len := plen, last_report := some (payload.take plen) } := by
        simp [LastSeen.WellFormed, LastSeen.bytes, hp]
      rw [cb_of_resolve _ inst report len _ _ _ hres,
        process_report_found _ info payload plen hwf hp, if_pos]
      simp [LastSeen.bytes]

theorem second_delivery_is_silent_witness :
    resolve_report ⟨2, [⟨1, 4, 1⟩, ⟨2, 5, 1⟩, ⟨0, 0, 0⟩, ⟨0, 0, 0⟩]⟩ [2, 7, 8] 3
        = some (some ⟨2, 5, 1⟩, [7, 8], 2) ∧
    ∃ out s1,
      tuh_hid_report_received_cb LastSeen.startup
          ⟨2, [⟨1, 4, 1⟩, ⟨2, 5, 1⟩, ⟨0, 0, 0⟩, ⟨0, 0, 0⟩]⟩ [2, 7, 8] 3 = some (out, s1) ∧
      tuh_hid_report_received_cb s1
          ⟨2, [⟨1, 4, 1⟩, ⟨2, 5, 1⟩, ⟨0, 0, 0⟩, ⟨0, 0, 0⟩]⟩ [2, 7, 8] 3 = some ([], s1) :=
  ⟨by decide,
   second_delivery_is_silent LastSeen.startup
    ⟨2, [⟨1, 4, 1⟩, ⟨2, 5, 1⟩, ⟨0, 0, 0⟩, ⟨0, 0, 0⟩]⟩ [2, 7, 8] 3 ⟨2, 5, 1⟩ [7, 8] 2
    (by decide) (by decide) (by decide)⟩

/-- C10: from the startup last-seen state, a received report whose descriptor is found is
printed and stored, whatever its usage page, usage and payload, a zero-length payload
(byte-equal to the empty initial buffer) included; the sentinel `-1` equals no unsigned
usage page or usage value. -/
theorem first_report_is_printed (inst : HidInstance) (report : List Nat) (len : Nat)
    (info : tuh_hid_report_info_t) (payload : List Nat) (plen : Nat)
    (hres : resolve_report inst report len = some (some info, payload, plen))
    (hp : plen ≤ payload.length) (hbytes : ∀ b ∈ payload.take plen, b < 256) :
    tuh_hid_report_received_cb LastSeen.startup inst report len =
      some (report_line plen (payload.take plen),
        { last_page := (info.usage_page : Int)
          last_usage := (info.usage : Int)
          last_len := plen
          last_report := some (payload.take plen) }) ∧
    (plen = 0 →
      equal LastSeen.startup.last_len LastSeen.startup.bytes plen payload = some true) ∧
    (∀ v : Nat, LastSeen.startup.last_page ≠ (v : Int) ∧
      LastSeen.startup.last_usage ≠ (v : Int)) := by
  have hsent : ∀ v : Nat, LastSeen.startup.last_page ≠ (v : Int) ∧
      LastSeen.startup.last_usage ≠ (v : Int) := by
    intro v
    simp only [LastSeen.startup]
    constructor <;> omega
  refine ⟨?_, ?_, hsent⟩
  · rw [cb_of_resolve _ inst report len _ _ _ hres,
      process_report_found _ info payload plen wellFormed_startup hp, if_neg,
      report_line_eq plen _ hbytes]
    intro h
    exact (hsent info.usage_page).1 h.1
  · intro h0
    subst h0
    rfl

theorem first_report_is_printed_witness :
    resolve_report ⟨1, [⟨0, 6, 1⟩, ⟨0, 0, 0⟩, ⟨0, 0, 0⟩, ⟨0, 0, 0⟩]⟩ [] 0
        = some (some ⟨0, 6, 1⟩, [], 0) ∧
    tuh_hid_report_received_cb LastSeen.startup
        ⟨1, [⟨0, 6, 1⟩, ⟨0, 0, 0⟩, ⟨0, 0, 0⟩, ⟨0, 0, 0⟩]⟩ [] 0 =
      some ("report[0] =\n".toList, ⟨1, 6, 0, some []⟩) :=
  ⟨by decide,
   (first_report_is_printed ⟨1, [⟨0, 6, 1⟩, ⟨0, 0, 0⟩, ⟨0, 0, 0⟩, ⟨0, 0, 0⟩]⟩ [] 0
    ⟨0, 6, 1⟩ [] 0 (by decide) (by decide) (by decide)).1⟩

/-- C5: with exactly one parsed report whose identifier is 0, the whole received buffer of
length `len` is what is compared, printed and stored; otherwise, for a non-empty buffer,
the descriptor is the first of the `rpt_count` entries whose `report_id` is the first byte
of the buffer, and what is compared, printed and stored is the buffer without its first
byte, of length `len - 1`.  The composite report `01 02 03` with a descriptor of
identifier 1 is printed as the two bytes `02 03`. -/
theorem payload_of_received_report (s : LastSeen) (inst : HidInstance) (report : List Nat)
    (len : Nat) :
    (∀ e, inst.rpt_count = 1 → inst.rpt_info_arr[0]? = some e → e.report_id = 0 →
      tuh_hid_report_received_cb s inst report len = process_report s (some e) report len) ∧
    (∀ b0 rest, report = b0 :: rest → 0 < len → len < 65536 →
      inst.rpt_count ≤ inst.rpt_info_arr.length →
      (inst.rpt_count = 1 → ∀ e, inst.rpt_info_arr[0]? = some e → e.report_id ≠ 0) →
      tuh_hid_report_received_cb s inst report len =
        process_report s
          ((inst.rpt_info_arr.take inst.rpt_count).find? (fun e => decide (e.report_id = b0)))
          rest (len - 1)) ∧
    tuh_hid_report_received_cb LastSeen.startup
        ⟨2, [⟨2, 5, 1⟩, ⟨1, 4, 1⟩, ⟨0, 0, 0⟩, ⟨0, 0, 0⟩]⟩ [1, 2, 3] 3 =
      some ("report[2] = 02 03\n".toList, ⟨1, 4, 2, some [2, 3]⟩) := by
  refine ⟨?_, ?_, by decide⟩
  · intro e h1 h0 hid
    apply cb_of_resolve
    simp [resolve_report, h1, h0, hid]
  · intro b0 rest hrep hpos hlt harr hcomp
    subst hrep
    have hlen : (len + 65535) % 65536 = len - 1 := by omega
    rw [cb_of_resolve s inst (b0 :: rest) len _ _ _ (resolve_composite inst b0 rest len hcomp harr),
      hlen]

theorem payload_of_received_report_witness :
    tuh_hid_report_received_cb ⟨1, 4, 2, some [2, 4]⟩
        ⟨2, [⟨2, 5, 1⟩, ⟨1, 4, 1⟩, ⟨0, 0, 0⟩, ⟨0, 0, 0⟩]⟩ [1, 2, 3] 3 =
      process_report ⟨1, 4, 2, some [2, 4]⟩ (some ⟨1, 4, 1⟩) [2, 3] 2 :=
  (payload_of_received_report ⟨1, 4, 2, some [2, 4]⟩
    ⟨2, [⟨2, 5, 1⟩, ⟨1, 4, 1⟩, ⟨0, 0, 0⟩, ⟨0, 0, 0⟩]⟩ [1, 2, 3] 3).2.1 1 [2, 3] rfl
    (by decide) (by decide) (by decide) (by decide)

/-- C6: on the composite path, a report whose first byte is the `report_id` of none of the
`rpt_count` descriptor entries makes the callback print only the diagnostic of line 124 and
leave the last-seen state unchanged; with zero parsed reports every received report takes
this path. -/
theorem unknown_report_is_dropped (s : LastSeen) (inst : HidInstance) (b0 : Nat)
    (rest : List Nat) (len : Nat) :
    ((inst.rpt_count = 1 → ∀ e, inst.rpt_info_arr[0]? = some e → e.report_id ≠ 0) →
      inst.rpt_count ≤ inst.rpt_info_arr.length →
      (∀ e ∈ inst.rpt_info_arr.take inst.rpt_count, e.report_id ≠ b0) →
      tuh_hid_report_received_cb s inst (b0 :: rest) len =
        some ("Couldn't find the report info for this report !\r\n".toList, s)) ∧
    (inst.rpt_count = 0 →
      tuh_hid_report_received_cb s inst (b0 :: rest) len =
        some ("Couldn't find the report info for this report !\r\n".toList, s)) := by
  have key : (inst.rpt_count = 1 → ∀ e, inst.rpt_info_arr[0]? = some e → e.report_id ≠ 0) →
      inst.rpt_count ≤ inst.rpt_info_arr.length →
      (∀ e ∈ inst.rpt_info_arr.take inst.rpt_count, e.report_id ≠ b0) →
      tuh_hid_report_received_cb s inst (b0 :: rest) len =
        some ("Couldn't find the report info for this report !\r\n".toList, s) := by
    intro hcomp harr hnone
    have hfind : (inst.rpt_info_arr.take inst.rpt_count).find?
        (fun e => decide (e.report_id = b0)) = none := by
      rw [List.find?_eq_none]
      intro e he
      simpa using hnone e he
    rw [cb_of_resolve s inst (b0 :: rest) len _ _ _ (resolve_composite inst b0 rest len hcomp harr),
      hfind]
    rfl
  refine ⟨key, ?_⟩
  intro h0
  apply key
  · intro h1; omega
  · omega
  · simp [h0]

theorem unknown_report_is_dropped_witness :
    tuh_hid_report_received_cb ⟨1, 4, 2, some [2, 4]⟩
        ⟨2, [⟨2, 5, 1⟩, ⟨1, 4, 1⟩, ⟨0, 0, 0⟩, ⟨0, 0, 0⟩]⟩ (7 :: [2, 3]) 3 =
      some ("Couldn't find the report info for this report !\r\n".toList,
        ⟨1, 4, 2, some [2, 4]⟩) :=
  (unknown_report_is_dropped ⟨1, 4, 2, some [2, 4]⟩
    ⟨2, [⟨2, 5, 1⟩, ⟨1, 4, 1⟩, ⟨0, 0, 0⟩, ⟨0, 0, 0⟩]⟩ 7 [2, 3] 3).1
    (by decide) (by decide) (by decide)

theorem chain_le_getLastD :
    ∀ (polls : List Nat) (prev : Nat), List.Chain (fun a b => a ≤ b) prev polls →
      prev ≤ polls.getLastD prev := by
  intro polls
  induction polls with
  | nil => intro prev _; simp
  | cons now polls ih =>
    intro prev hchain
    rw [List.chain_cons] at hchain
    simp only [List.getLastD_cons]
    exact le_trans hchain.1 (ih now hchain.2)

/-! ## Facts about the heartbeat -/

theorem led_toggle_eq (b : Bool) :
    decide ((1 : Int) - (if b then 1 else 0) ≠ 0) = !b := by
  cases b <;> decide

theorem led_blinking_task_idle (s : LedState) (now : Nat)
    (h : (now + 2 ^ 32 - s.start_ms) % 2 ^ 32 < 1000) :
    led_blinking_task s now = (s, []) := by
  simp only [led_blinking_task, if_pos h]

theorem led_blinking_task_toggle (s : LedState) (now : Nat)
    (h : ¬ (now + 2 ^ 32 - s.start_ms) % 2 ^ 32 < 1000) :
    led_blinking_task s now =
      ({ start_ms := (s.start_ms + 1000) % 2 ^ 32, led_state := !s.led_state },
        [s.led_state]) := by
  simp only [led_blinking_task, if_neg h, led_toggle_eq]

/-- The pin writes of a run alternate, starting with the current level. -/
theorem led_run_alternates :
    ∀ (polls : List Nat) (s : LedState),
      List.Chain' (fun a b => b = !a) (led_run s polls).2 ∧
        ∀ x ∈ (led_run s polls).2.head?, x = s.led_state := by
  intro polls
  induction polls with
  | nil => intro s; simp [led_run]
  | cons now polls ih =>
    intro s
    by_cases h : (now + 2 ^ 32 - s.start_ms) % 2 ^ 32 < 1000
    · simp only [led_run, led_blinking_task_idle s now h, List.nil_append]
      exact ih s
    · simp only [led_run, led_blinking_task_toggle s now h, List.singleton_append]
      obtain ⟨hchain, hhead⟩ := ih ⟨(s.start_ms + 1000) % 2 ^ 32, !s.led_state⟩
      refine ⟨?_, by simp⟩
      rw [List.chain'_cons']
      exact ⟨hhead, hchain⟩

/-- While the clock has not wrapped, the deadline is 1000 times the number of toggles and
never passes the latest clock reading. -/
theorem led_run_deadline :
    ∀ (polls : List Nat) (s : LedState) (prev : Nat),
      s.start_ms ≤ prev → List.Chain (fun a b => a ≤ b) prev polls →
      polls.getLastD prev < 2 ^ 32 →
      (led_run s polls).1.start_ms = s.start_ms + 1000 * (led_run s polls).2.length ∧
        (led_run s polls).1.start_ms ≤ polls.getLastD prev := by
  intro polls
  induction polls with
  | nil => intro s prev hle _ _; simpa [led_run] using hle
  | cons now polls ih =>
    intro s prev hle hchain hlast
    rw [List.chain_cons] at hchain
    obtain ⟨hpn, hchain⟩ := hchain
    have hnow : now ≤ polls.getLastD now := by
      exact chain_le_getLastD polls now hchain
    simp only [List.getLastD_cons] at hlast ⊢
    by_cases h : (now + 2 ^ 32 - s.start_ms) % 2 ^ 32 < 1000
    · simp only [led_run, led_blinking_task_idle s now h, List.nil_append]
      exact ih s now (by omega) hchain hlast
    · simp only [led_run, led_blinking_task_toggle s now h, List.singleton_append,
        List.length_cons]
      have hmod : (s.start_ms + 1000) % 2 ^ 32 = s.start_ms + 1000 := by omega
      obtain ⟨h1, h2⟩ := ih ⟨(s.start_ms + 1000) % 2 ^ 32, !s.led_state⟩ now
        (by simp only [hmod]; omega) hchain hlast
      simp only [hmod] at h1 h2 ⊢
      exact ⟨by omega, h2⟩

/-- When every gap between polls is shorter than the interval, the latest clock reading
stays less than one interval past the deadline. -/
theorem led_run_regular :
    ∀ (polls : List Nat) (s : LedState) (prev : Nat),
      s.start_ms ≤ prev → prev < s.start_ms + 1000 →
      List.Chain (fun a b => a ≤ b) prev polls →
      List.Chain (fun a b => b < a + 1000) prev polls →
      polls.getLastD prev < 2 ^ 32 →
      polls.getLastD prev < (led_run s polls).1.start_ms + 1000 := by
  intro polls
  induction polls with
  | nil => intro s prev _ hlt _ _ _; simpa [led_run] using hlt
  | cons now polls ih =>
    intro s prev hle hlt hmono hgap hlast
    rw [List.chain_cons] at hmono hgap
    obtain ⟨hpn, hmono⟩ := hmono
    obtain ⟨hgn, hgap⟩ := hgap
    have hnow : now ≤ polls.getLastD now := chain_le_getLastD polls now hmono
    simp only [List.getLastD_cons] at hlast ⊢
    by_cases h : (now + 2 ^ 32 - s.start_ms) % 2 ^ 32 < 1000
    · simp only [led_run, led_blinking_task_idle s now h, List.nil_append]
      exact ih s now (by omega) (by omega) hmono hgap hlast
    · simp only [led_run, led_blinking_task_toggle s now h, List.singleton_append]
      have hmod : (s.start_ms + 1000) % 2 ^ 32 = s.start_ms + 1000 := by omega
      exact ih ⟨(s.start_ms + 1000) % 2 ^ 32, !s.led_state⟩ now
        (by simp only [hmod]; omega) (by simp only [hmod]; omega) hmono hgap hlast

/-! ## The claims about the heartbeat -/

/-- C7: with `uint32_t` arithmetic modulo `2 ^ 32`, a poll at which `now - start_ms` is
below 1000 changes neither the deadline nor the level and writes nothing to the pin; any
other poll advances the deadline by exactly 1000, writes the pin exactly once and flips the
level; over any sequence of polls each level written is the opposite of the level written
by the previous toggling poll. -/
theorem led_blinking_task_spec (s : LedState) (now : Nat) (hs : s.start_ms < 2 ^ 32)
    (hn : now < 2 ^ 32) :
    (((now : Int) - (s.start_ms : Int)) % 2 ^ 32 < 1000 →
      led_blinking_task s now = (s, [])) ∧
    (¬ ((now : Int) - (s.start_ms : Int)) % 2 ^ 32 < 1000 →
      led_blinking_task s now =
        (⟨(s.start_ms + 1000) % 2 ^ 32, !s.led_state⟩, [s.led_state])) ∧
    (∀ polls : List Nat, List.Chain' (fun a b => b = !a) (led_run s polls).2) := by
  have hcast : (((now + 2 ^ 32 - s.start_ms) % 2 ^ 32 : Nat) : Int) =
      ((now : Int) - (s.start_ms : Int)) % 2 ^ 32 := by omega
  refine ⟨?_, ?_, fun polls => (led_run_alternates polls s).1⟩
  · intro h
    exact led_blinking_task_idle s now (by omega)
  · intro h
    exact led_blinking_task_toggle s now (by omega)

theorem led_blinking_task_spec_witness :
    led_blinking_task ⟨4294967000, true⟩ 800 = (⟨704, false⟩, [true]) :=
  (led_blinking_task_spec ⟨4294967000, true⟩ 800 (by decide) (by decide)).2.1 (by decide)

/-- C8: from the initial heartbeat state and for polls at non-decreasing clock readings
below `2 ^ 32`, the number of toggles up to and including the poll at time `t` is at most
`t / 1000`; when the first poll and every gap between consecutive polls are shorter than
1000 ms, that number is exactly `t / 1000` and the deadline is 1000 times it. -/
theorem heartbeat_toggle_count (polls : List Nat) (t : Nat)
    (hmono : List.Chain' (fun a b => a ≤ b) (polls ++ [t])) (ht : t < 2 ^ 32) :
    (led_run LedState.startup (polls ++ [t])).2.length ≤ t / 1000 ∧
    (List.Chain (fun a b => b < a + 1000) 0 (polls ++ [t]) →
      (led_run LedState.startup (polls ++ [t])).2.length = t / 1000 ∧
      (led_run LedState.startup (polls ++ [t])).1.start_ms = 1000 * (t / 1000)) := by
  have hchain : List.Chain (fun a b => a ≤ b) 0 (polls ++ [t]) := by
    have : List.Chain' (fun a b => a ≤ b) (0 :: (polls ++ [t])) := by
      rw [List.chain'_cons']
      exact ⟨fun y _ => Nat.zero_le y, hmono⟩
    exact this
  have hlast : (polls ++ [t]).getLastD 0 = t := List.getLastD_concat 0 t polls
  obtain ⟨h1, h2⟩ := led_run_deadline (polls ++ [t]) LedState.startup 0 (le_refl 0) hchain
    (by rw [hlast]; exact ht)
  rw [hlast] at h2
  have hstart : LedState.startup.start_ms = 0 := rfl
  rw [hstart, Nat.zero_add] at h1
  constructor
  · rw [Nat.le_div_iff_mul_le (by decide : 0 < 1000)]
    omega
  · intro hgap
    have h3 := led_run_regular (polls ++ [t]) LedState.startup 0 (le_refl 0)
      (by rw [hstart]; decide) hchain hgap (by rw [hlast]; exact ht)
    rw [hlast] at h3
    have hcount : (led_run LedState.startup (polls ++ [t])).2.length = t / 1000 := by
      omega
    exact ⟨hcount, by rw [h1, hcount]⟩

theorem heartbeat_toggle_count_witness :
    (led_run LedState.startup ([400, 1300, 1900] ++ [2800])).2.length ≤ 2800 / 1000 ∧
    (led_run LedState.startup ([400, 1300, 1900] ++ [2800])).2.length = 2800 / 1000 ∧
    (led_run LedState.startup ([400, 1300, 1900] ++ [2800])).1.start_ms
      = 1000 * (2800 / 1000) :=
  ⟨(heartbeat_toggle_count [400, 1300, 1900] 2800 (by simp) (by decide)).1,
   (heartbeat_toggle_count [400, 1300, 1900] 2800 (by simp) (by decide)).2 (by simp)⟩

end PicoGamepad
